import Mathlib

/-!
Verification development for the aml-dtbtools repository (src/dtb_tool.rs).

The tool packs a directory of device-tree blobs (DTBs) into a single
"AML_" container and splits such a container back into its member DTBs.
We shallowly embed the byte-level behaviour of `dtb_pack`, `dtb_split`,
`dump_data`, `get_chip_info`, `copy_str_to_cstr` and `pad_spaces` over
`List Nat` byte buffers (each element a byte value) and settle the
specification's claims against the embedding.

Machine-integer conventions: `u32` struct fields written to disk are
serialized little-endian (host order of the supported targets); a value
stored into a `u32` field via an `as u32` cast is reduced `% 2 ^ 32`.
A Rust `%` on `usize` panics when the divisor is zero; we model that
with `rustRem`, returning `none` for a zero divisor.  Fallible reads
(`read_exact`) and panics are modelled with `Option`.
-/

set_option maxRecDepth 10000

namespace DtbTool

/-- Byte buffers (and ASCII strings) are lists of byte values. -/
abbrev Bytes := List Nat

/-- Little-endian serialization of a 32-bit word, as the `#[repr(C)]`
structs are written on the tool's little-endian targets.  An oversized
value is truncated, matching an `as u32` cast composed with the write. -/
def le32 (n : Nat) : Bytes :=
  [n % 256, n / 2 ^ 8 % 256, n / 2 ^ 16 % 256, n / 2 ^ 24 % 256]

/-- Read a 32-bit word stored little-endian (host order of the targets). -/
def fromLE32 : Bytes → Nat
  | [a, b, c, d] => a + 2 ^ 8 * b + 2 ^ 16 * c + 2 ^ 24 * d
  | _ => 0

/-- Read a 32-bit word stored big-endian; models `u32::from_be` applied to
a word that was read in host order (dtb_tool.rs:158). -/
def fromBE32 : Bytes → Nat
  | [a, b, c, d] => 2 ^ 24 * a + 2 ^ 16 * b + 2 ^ 8 * c + d
  | _ => 0

/-- Model of `read_exact` on a cursor positioned at `pos`: yields exactly
`n` bytes or fails (`ErrorKind::UnexpectedEof`) when the buffer is short. -/
def readExact (data : Bytes) (pos n : Nat) : Option Bytes :=
  if pos + n ≤ data.length then some ((data.drop pos).take n) else none

/-- Rust remainder on unsigned integers: panics (here `none`) when the
divisor is zero. -/
def rustRem (a b : Nat) : Option Nat :=
  if b = 0 then none else some (a % b)

/-- Container magic `AML_` read as a little-endian 32-bit word
(dtb_tool.rs:20). -/
def AML_DT_HEADER : Nat := 0x5f4c4d41

/-- Embedded blob magic (dtb_tool.rs:21). -/
def DT_HEADER_MAGIC : Nat := 0xedfe0dd0

/-- Container version written by pack (dtb_tool.rs:12). -/
def AML_DT_VERSION : Nat := 2

/-- Width of a version-2 identifier field (dtb_tool.rs:17). -/
def INFO_ENTRY_SIZE : Nat := 16

/-- Upper bound of the CLI page-size range (dtb_tool.rs:15). -/
def PAGE_SIZE_MAX : Nat := 1024 * 1024

/-- Model of the clap value parser `range(0..PAGE_SIZE_MAX)` on the
`page_size` flag (dtb_tool.rs:38): accepts any value below the bound;
the lower bound of the range is 0. -/
def pageSizeInRange (n : Nat) : Bool := decide (n < PAGE_SIZE_MAX)

/-- One container entry: `HeaderEntry<ID_SIZE>` (dtb_tool.rs:57-64).
The identifier fields are byte arrays of width `ID_SIZE` (4 in version 1,
16 in version 2); `offset` and `dtb_size` are `u32`. -/
structure Entry where
  soc : Bytes
  plat : Bytes
  vari : Bytes
  offset : Nat
  dtb_size : Nat
deriving DecidableEq

/-- Pack-side per-file record `ChipInfo` (dtb_tool.rs:240-247). -/
structure ChipInfo where
  chipset : Bytes
  platform : Bytes
  rev_num : Bytes
  dtb_size : Nat
  dtb_file : Bytes
deriving DecidableEq

/-- A fallback `ChipInfo`, used only to name concrete values below. -/
def defaultChip : ChipInfo := ⟨[], [], [], 0, []⟩

/-- One output file written by split: its path bytes and its contents. -/
structure OutFile where
  name : Bytes
  data : Bytes
deriving DecidableEq

/-- Serialization of an entry as its `#[repr(C)]` byte image
(`AsByteSlice::as_slice`, dtb_tool.rs:78-89): the three identifier
arrays followed by the two little-endian `u32` fields, with no
inter-field padding (all field offsets are 4-aligned). -/
def serializeEntry (e : Entry) : Bytes :=
  e.soc ++ e.plat ++ e.vari ++ le32 e.offset ++ le32 e.dtb_size

/-- Well-formedness of an entry for a given identifier width. -/
def entryWF (idSize : Nat) (e : Entry) : Prop :=
  e.soc.length = idSize ∧ e.plat.length = idSize ∧ e.vari.length = idSize

/-- Byte-wise whitespace in the ASCII range, matching what Rust's
`char::is_whitespace` (Unicode White_Space) accepts below 0x80:
space and U+0009..U+000D. -/
def isWsByte (b : Nat) : Bool := b == 32 || (9 ≤ b && b ≤ 13)

/-- In-place reversal of each 4-byte word of a field, the loop
`for chunk in field.chunks_mut(4) { chunk.reverse() }`
(dtb_tool.rs:128-136 and 372-380); a final partial chunk is reversed
as well. -/
def wordRev : Bytes → Bytes
  | a :: b :: c :: d :: rest => d :: c :: b :: a :: wordRev rest
  | rest => rest.reverse

/-- Model of `str::trim_end` (dtb_tool.rs:138-142) on ASCII bytes:
drop the maximal trailing run of whitespace bytes.  NUL is not
whitespace, so trailing NUL bytes are kept. -/
def rustTrimEnd (s : Bytes) : Bytes :=
  (s.reverse.dropWhile isWsByte).reverse

/-- All bytes of the buffer are 7-bit ASCII. -/
def allAscii (s : Bytes) : Bool := s.all (fun b => decide (b < 128))

/-- Decoding of one identifier field during split: word reversal then
`trim_end` (dtb_tool.rs:128-142). -/
def decodeField (f : Bytes) : Bytes := rustTrimEnd (wordRev f)

/-- The byte string `.dtb` appended to every output filename. -/
def dtbExt : Bytes := [46, 100, 116, 98]

/-- Whether the buffer ends in a whitespace byte. -/
def endsInWs (s : Bytes) : Bool :=
  match s.reverse with
  | [] => false
  | b :: _ => isWsByte b

/-- Identifier string `soc-plat-vari` built for an entry
(dtb_tool.rs:137-142).  The code runs the raw fields through
`str::from_utf8(..).unwrap()`, which panics on invalid UTF-8; the
container format's identifier fields are ASCII text, and we model the
unwrap as requiring every field byte to be ASCII (`none` models the
panic). -/
def entryId (e : Entry) : Option Bytes :=
  if allAscii (wordRev e.soc) && allAscii (wordRev e.plat) && allAscii (wordRev e.vari) then
    some (decodeField e.soc ++ [45] ++ decodeField e.plat ++ [45] ++ decodeField e.vari)
  else none

/-- Parse one `HeaderEntry<idSize>` record read by `read_exact` into the
struct's byte image (dtb_tool.rs:120-125). -/
def parseEntry (idSize : Nat) (data : Bytes) (pos : Nat) : Option Entry :=
  match readExact data pos (3 * idSize + 8) with
  | none => none
  | some bs =>
    some { soc := bs.take idSize
           plat := (bs.drop idSize).take idSize
           vari := (bs.drop (2 * idSize)).take idSize
           offset := fromLE32 ((bs.drop (3 * idSize)).take 4)
           dtb_size := fromLE32 ((bs.drop (3 * idSize + 4)).take 4) }

/-- Parse `n` consecutive entry records starting at `pos`, the first
loop of `dump_data` (dtb_tool.rs:120-125); a short read aborts the
whole operation. -/
def parseEntries (idSize n : Nat) (data : Bytes) (pos : Nat) : Option (List Entry) :=
  match n with
  | 0 => some []
  | m + 1 =>
    match parseEntry idSize data pos with
    | none => none
    | some e => (parseEntries idSize m data (pos + (3 * idSize + 8))).map (e :: ·)

/-- Body of the per-entry extraction loop of `dump_data`
(dtb_tool.rs:127-168) for one entry: build the identifier (`none`
models the `from_utf8` unwrap panic), seek to the entry's offset, read
the blob's own 8-byte header, and on a magic mismatch skip the entry
(`some none`); otherwise re-read `totalsize` bytes (that field is
big-endian) and emit the output file `dest ++ id ++ ".dtb"`.  A short
read is fatal (`none`). -/
def processEntry (dest data : Bytes) (e : Entry) : Option (Option OutFile) :=
  match entryId e with
  | none => none
  | some id =>
    match readExact data e.offset 8 with
    | none => none
    | some dh =>
      if fromLE32 (dh.take 4) = DT_HEADER_MAGIC then
        match readExact data e.offset (fromBE32 (dh.drop 4)) with
        | none => none
        | some blob => some (some ⟨dest ++ id ++ dtbExt, blob⟩)
      else some none

/-- The extraction loop over all parsed entries: collects the output
files in entry order and counts the skipped-entry diagnostics
(`DTB Header mismatch`); a fatal error on any entry aborts the whole
operation (`none`; files already written before that point are not
modelled). -/
def dumpLoop (dest data : Bytes) : List Entry → Option (List OutFile × Nat)
  | [] => some ([], 0)
  | e :: rest =>
    match processEntry dest data e, dumpLoop dest data rest with
    | none, _ => none
    | some _, none => none
    | some none, some (fs, k) => some (fs, k + 1)
    | some (some f), some (fs, k) => some (f :: fs, k)

/-- Model of `dump_data::<idSize>` (dtb_tool.rs:113-171) on a cursor
over `data` positioned at `pos`: read `entries` records, then extract
each one. -/
def dump_data (idSize n : Nat) (dest data : Bytes) (pos : Nat) :
    Option (List OutFile × Nat) :=
  match parseEntries idSize n data pos with
  | none => none
  | some es => dumpLoop dest data es

/-- Version dispatch of `dtb_split` (dtb_tool.rs:228-235): version 1
uses 4-byte identifier fields, version 2 uses 16-byte fields, any other
version reports `Unrecognized DTB version` and returns with no files. -/
def dispatchVersion (version count : Nat) (dest data : Bytes) (pos : Nat) :
    Option (List OutFile) :=
  match version with
  | 1 => (dump_data 4 count dest data pos).map Prod.fst
  | 2 => (dump_data 16 count dest data pos).map Prod.fst
  | _ => some []

/-- Model of `dtb_split` (dtb_tool.rs:173-238) on the input file's
bytes.  `decompress` is the external gzip collaborator (its failure,
`none`, models the `expect` panic).  The 12-byte header is read from
the file; if its magic matches `AML_` the REST of the file (after the
consumed header) becomes the cursor handed to `dump_data`, so entry
offsets are resolved relative to byte 12 of the file.  Otherwise, when
the low 16 bits of the magic word equal 0x8b1f, the whole file is
decompressed, the header is re-read from the decompressed buffer, and
`dump_data` runs on that full buffer with the cursor at byte 12.  Any
other magic (or a bad magic after decompression) reports an invalid
header and returns no files. -/
def dtb_split (decompress : Bytes → Option Bytes) (dest file : Bytes) :
    Option (List OutFile) :=
  match readExact file 0 12 with
  | none => none
  | some hb =>
    if fromLE32 (hb.take 4) = AML_DT_HEADER then
      dispatchVersion (fromLE32 ((hb.drop 4).take 4)) (fromLE32 (hb.drop 8))
        dest (file.drop 12) 0
    else if fromLE32 (hb.take 4) % 65536 = 0x8b1f then
      match decompress file with
      | none => none
      | some data =>
        match readExact data 0 12 with
        | none => none
        | some hb2 =>
          if fromLE32 (hb2.take 4) = AML_DT_HEADER then
            dispatchVersion (fromLE32 ((hb2.drop 4).take 4)) (fromLE32 (hb2.drop 8))
              dest data 12
          else some []
    else some []

/-- Model of `pad_spaces` (dtb_tool.rs:261-270) on the reversed buffer:
walking from the end, every NUL of the trailing run becomes a space,
stopping at the first non-NUL byte. -/
def padSpacesRev : Bytes → Bytes
  | [] => []
  | b :: rest => if b == 0 then 32 :: padSpacesRev rest else b :: rest

/-- Model of `pad_spaces` (dtb_tool.rs:261-270): convert the maximal
trailing run of NUL bytes into spaces. -/
def pad_spaces (s : Bytes) : Bytes := (padSpacesRev s.reverse).reverse

/-- A character accepted by the copy loop of `copy_str_to_cstr`
(dtb_tool.rs:275): ASCII and not whitespace; the first rejected
character stops the copy. -/
def goodIdChar (c : Nat) : Bool := decide (c < 128) && !isWsByte c

/-- Model of `copy_str_to_cstr` (dtb_tool.rs:272-282) on a source given
as its character codes: copy up to `INFO_ENTRY_SIZE - 1` characters,
stopping at the first non-ASCII or whitespace character, into a
16-byte field that is otherwise NUL (the destination starts zeroed and
`dst[15]` is set to 0). -/
def copy_str_to_cstr (src : List Nat) : Bytes :=
  let copied := (src.take (INFO_ENTRY_SIZE - 1)).takeWhile goodIdChar
  copied ++ List.replicate (INFO_ENTRY_SIZE - copied.length) 0

/-- Split of the identifier property on `_` or `-`
(`s.split(&['_', '-'])`, dtb_tool.rs:294); like Rust's `split` it
yields one (possibly empty) piece per separator gap and at least one
piece overall. -/
def splitIdentAux : Bytes → Bytes → List Bytes
  | [], acc => [acc.reverse]
  | c :: rest, acc =>
    if c == 95 || c == 45 then acc.reverse :: splitIdentAux rest []
    else splitIdentAux rest (c :: acc)

/-- Split an identifier string on `_` or `-` (dtb_tool.rs:294). -/
def splitIdent (s : Bytes) : List Bytes := splitIdentAux s []

/-- The pack-side size bookkeeping of `get_chip_info`
(dtb_tool.rs:303): `len + (page_size - (len % page_size))`, which adds
a full extra page when `len` is already page-aligned. -/
def paddedSize (len page : Nat) : Nat := len + (page - len % page)

/-- Model of `get_chip_info` (dtb_tool.rs:284-316) after the external
device-tree collaborator has produced the `amlogic-dt-id` property
string `s` for the blob bytes `buf` (file I/O and the property lookup
are out-of-scope collaborators; their failures skip the file before
this point).  The code indexes `sp[0]`, `sp[1]`, `sp[2]` without
checking the component count and computes the remainder
`buf.len() % page_size`; `none` models the resulting panic when a
component is missing (index out of bounds) or `page_size` is zero
(remainder by zero).  The `u32` field `dtb_size` truncates the padded
size. -/
def get_chip_info (s : Bytes) (buf : Bytes) (page : Nat) : Option ChipInfo :=
  match (splitIdent s).get? 0, (splitIdent s).get? 1, (splitIdent s).get? 2,
      rustRem buf.length page with
  | some c0, some c1, some c2, some _ =>
    some { chipset := copy_str_to_cstr c0
           platform := copy_str_to_cstr c1
           rev_num := copy_str_to_cstr c2
           dtb_size := paddedSize buf.length page % 2 ^ 32
           dtb_file := buf }
  | _, _, _, _ => none

/-- The first-blob offset computed by `dtb_pack` (dtb_tool.rs:362-364):
`size_of::<Header>() = 12` plus `size_of::<HeaderEntryV2>() = 56` per
entry plus the 4 reserved bytes, rounded with the same
always-pad-at-least-one-byte rule as `paddedSize`. -/
def firstBlobOffset (page n : Nat) : Nat :=
  12 + 56 * n + 4 + (page - (12 + 56 * n + 4) % page)

/-- The entry `dtb_pack` writes for one chip (dtb_tool.rs:367-387):
space-padded, word-reversed identifier fields, the running offset
truncated to the `u32` field, and the chip's (already truncated)
padded size. -/
def packChipEntry (chip : ChipInfo) (off : Nat) : Entry :=
  { soc := wordRev (pad_spaces chip.chipset)
    plat := wordRev (pad_spaces chip.platform)
    vari := wordRev (pad_spaces chip.rev_num)
    offset := off % 2 ^ 32
    dtb_size := chip.dtb_size }

/-- The entry list written by `dtb_pack`'s first loop
(dtb_tool.rs:367-393): the running total `expected` starts at the
page-rounded first-blob offset and advances by each chip's `dtb_size`. -/
def packEntryList : List ChipInfo → Nat → List Entry
  | [], _ => []
  | c :: rest, off => packChipEntry c off :: packEntryList rest (off + c.dtb_size)

/-- The entries of a packed container for a given page size. -/
def packEntriesOf (page : Nat) (chips : List ChipInfo) : List Entry :=
  packEntryList chips (firstBlobOffset page chips.length)

/-- Sum of the recorded `dtb_size` fields of a chip list. -/
def sumDtbSizes (chips : List ChipInfo) : Nat :=
  (chips.map ChipInfo.dtb_size).sum

/-- One blob as written by `dtb_pack`'s second loop (dtb_tool.rs:406-416):
the raw bytes followed by zero filler only when the filler size
`page_size - (len % page_size)` is nonzero and strictly below a full
page (so an aligned blob gets no filler).  Only used on the
`page ≠ 0` path of `dtb_pack`. -/
def packOneBlob (page : Nat) (blob : Bytes) : Bytes :=
  let fillerSize := page - blob.length % page
  if 0 < fillerSize ∧ fillerSize < page then
    blob ++ List.replicate fillerSize 0
  else blob

/-- Model of `dtb_pack` (dtb_tool.rs:318-422) on an already collected
chip list: with no chips the function returns without creating an
output (`none`); otherwise it writes the header (magic, version 2,
entry count), the version-2 entries, the 4 reserved zero bytes, the
first-blob alignment filler (its size is always in `1..=page`, so the
`padding > 0` guard always writes), and each blob with its trailing
filler.  `none` also models the remainder-by-zero panic when
`page = 0`. -/
def dtb_pack (page : Nat) (chips : List ChipInfo) : Option Bytes :=
  if chips.length = 0 then none
  else
    match rustRem (12 + 56 * chips.length + 4) page with
    | none => none
    | some r =>
      let padding := page - r
      some (le32 AML_DT_HEADER ++ le32 AML_DT_VERSION ++ le32 chips.length
        ++ ((packEntriesOf page chips).map serializeEntry).flatten
        ++ le32 0
        ++ (if padding > 0 then List.replicate padding 0 else [])
        ++ (chips.map (fun c => packOneBlob page c.dtb_file)).flatten)

/-- Modelled from the spec: the decoder behaviour claimed in C9 /
spec §4.1, which trims ALL trailing NUL and space bytes from a
decoded identifier field; stated only to compare against the code's
`trim_end` model. -/
def trimNulSpace (s : Bytes) : Bytes :=
  (s.reverse.dropWhile (fun b => b == 0 || b == 32)).reverse

/-- The identifier property string `a_b_c`. -/
def idABC : Bytes := [97, 95, 98, 95, 99]

/-- A valid 40-byte DTB: blob magic `d0 0d fe ed`, big-endian totalsize
40 equal to its length, and zero payload. -/
def blobC1 : Bytes := [208, 13, 254, 237, 0, 0, 0, 40] ++ List.replicate 32 0

/-- The chip record pack builds for `blobC1` with identifier `a_b_c`
and page size 8. -/
def chipC1 : ChipInfo := (get_chip_info idABC blobC1 8).getD defaultChip

/-- The container produced by packing `blobC1` at page size 8. -/
def containerC1 : Bytes := (dtb_pack 8 [chipC1]).getD []

/-- A 12-byte stand-in for a gzip stream: first word has low 16 bits
0x8b1f and is not the container magic. -/
def gzC2 : Bytes := [31, 139, 8, 0, 0, 0, 0, 0, 0, 0, 0, 0]

/-- Decompression collaborator used for C2: maps any input to
`containerC1`. -/
def gunzipC2 : Bytes → Option Bytes := fun _ => some containerC1

/-- A chip for a 4-byte blob at page size 8 (padded size 8). -/
def chipA3 : ChipInfo := (get_chip_info idABC [1, 2, 3, 4] 8).getD defaultChip

/-- A buffer whose length reaches the 32-bit boundary. -/
def bigBuf : Bytes := List.replicate (2 ^ 32) 0

/-- A chip for a 3-byte blob at page size 8. -/
def chipW : ChipInfo := (get_chip_info idABC [1, 2, 3] 8).getD defaultChip

/-- A concrete well-formed version-1 entry. -/
def entV1 : Entry :=
  ⟨List.replicate 4 97, List.replicate 4 98, List.replicate 4 99, 7, 9⟩

/-- A concrete well-formed version-2 entry. -/
def entV2 : Entry :=
  ⟨List.replicate 16 97, List.replicate 16 98, List.replicate 16 99, 7, 9⟩

/-- An 8-byte blob, page-aligned at page size 8. -/
def blobAligned : Bytes := List.replicate 8 1

/-- An identifier field value `aaaa` (invariant under word reversal). -/
def entA : Bytes := [97, 97, 97, 97]

/-- Entry 1 of the C7 container: blob at offset 60. -/
def e1C7 : Entry := ⟨entA, entA, entA, 60, 0⟩

/-- Entry 2 of the C7 container: its blob header magic is corrupt. -/
def e2C7 : Entry := ⟨entA, entA, entA, 72, 0⟩

/-- Entry 3 of the C7 container: blob at offset 80. -/
def e3C7 : Entry := ⟨entA, entA, entA, 80, 0⟩

/-- Blob header bytes of entry 1: valid magic, totalsize 12. -/
def dh1C7 : Bytes := [208, 13, 254, 237, 0, 0, 0, 12]

/-- The 12-byte blob of entry 1. -/
def blob1C7 : Bytes := [208, 13, 254, 237, 0, 0, 0, 12, 1, 2, 3, 4]

/-- Blob header bytes of entry 2: zero magic, not the blob signature. -/
def dh2C7 : Bytes := [0, 0, 0, 0, 0, 0, 0, 0]

/-- Blob header bytes of entry 3: valid magic, totalsize 8 (the whole
blob is its header). -/
def dh3C7 : Bytes := [208, 13, 254, 237, 0, 0, 0, 8]

/-- A cursor buffer holding three version-1 entries followed by their
blobs; only entry 2's blob magic mismatches. -/
def dataC7 : Bytes :=
  (entA ++ entA ++ entA ++ le32 60 ++ le32 0)
    ++ (entA ++ entA ++ entA ++ le32 72 ++ le32 0)
    ++ (entA ++ entA ++ entA ++ le32 80 ++ le32 0)
    ++ blob1C7 ++ dh2C7 ++ dh3C7

/-- The identifier decoded from the C7 entries. -/
def idC7 : Bytes := entA ++ [45] ++ entA ++ [45] ++ entA

/-- C1: packing a set of valid DTB files and then splitting the
resulting container must yield the same files back.  It does not: the
uncompressed-input path of `dtb_split` reads the header from the file
and then `read_to_end`s only the REMAINDER into the cursor handed to
`dump_data`, so the absolute entry offsets written by `dtb_pack` are
resolved 12 bytes late, the blob magic check reads payload bytes
instead of the blob header, and every entry is skipped.  Here a single
valid 40-byte DTB (correct magic, big-endian totalsize equal to its
length, well-formed three-component identifier `a_b_c`) is packed at
page size 8 and split again: the split yields zero output files
instead of the one byte-identical original. -/
theorem C1_pack_then_split_loses_all_files :
    fromLE32 (blobC1.take 4) = DT_HEADER_MAGIC
    ∧ fromBE32 ((blobC1.drop 4).take 4) = blobC1.length
    ∧ get_chip_info idABC blobC1 8 = some chipC1
    ∧ dtb_pack 8 [chipC1] = some containerC1
    ∧ dtb_split Option.some [] containerC1 = some []
    ∧ (some [] : Option (List OutFile))
        ≠ some [⟨[97, 45, 98, 45, 99] ++ dtbExt, blobC1⟩] := by
  decide

/-- C2: splitting the gzip-compressed form of a valid container (the
wrapper detected by the low 16 bits of the first word being 0x8b1f,
then decompressed and re-parsed) is claimed to produce exactly the
same results as splitting the container directly.  It does not: the
gzip path re-reads the header from the FULL decompressed buffer, so
entry offsets are resolved correctly and the blob is extracted, while
the direct path hands `dump_data` a cursor missing the first 12 bytes
and extracts nothing.  `gzC2` is a gzip stand-in whose decompression
collaborator yields `containerC1`. -/
theorem C2_gzip_and_plain_split_disagree :
    fromLE32 (gzC2.take 4) % 65536 = 0x8b1f
    ∧ gunzipC2 gzC2 = some containerC1
    ∧ dtb_split gunzipC2 [] gzC2
        = some [⟨[97, 45, 98, 45, 99] ++ dtbExt, blobC1⟩]
    ∧ dtb_split gunzipC2 [] containerC1 = some []
    ∧ (some [(⟨[97, 45, 98, 45, 99] ++ dtbExt, blobC1⟩ : OutFile)]
        : Option (List OutFile)) ≠ some [] := by
  decide

/-- C5 counterexample: the claim states a version-2 entry record is 68
bytes wide; the serialized `HeaderEntryV2` (three 16-byte identifier
fields plus two 4-byte words, no inter-field padding) is 56 bytes
wide. -/
theorem C5_v2_entry_is_56_bytes :
    (serializeEntry entV2).length = 56 ∧ (56 : Nat) ≠ 68 := by
  decide

/-- C8: the claim states that an identifier that does not split into
exactly three components never makes chip-record construction fail
fatally.  For the one-component identifier `gxbb` the code's
`sp[1]` (and `sp[2]`) index is out of bounds — `get_chip_info`
panics, modelled by `none` — instead of proceeding best-effort. -/
theorem C8_short_identifier_panics :
    splitIdent [103, 120, 98, 98] = [[103, 120, 98, 98]]
    ∧ (splitIdent [103, 120, 98, 98]).length = 1
    ∧ (splitIdent [103, 120, 98, 98]).get? 1 = none
    ∧ get_chip_info [103, 120, 98, 98] [1, 2, 3] 8 = none := by
  decide

/-- C9 counterexample: for the stored field `00 00 00 61` the word
reversal yields `61 00 00 00`; the claim says all trailing NUL and
space bytes are then trimmed (which would leave `61`), but the code's
`trim_end` trims only whitespace, so the three NUL bytes survive into
the decoded identifier. -/
theorem C9_trailing_nul_not_trimmed :
    decodeField [0, 0, 0, 97] = [97, 0, 0, 0]
    ∧ trimNulSpace (wordRev [0, 0, 0, 97]) = [97]
    ∧ ([97, 0, 0, 0] : Bytes) ≠ [97] := by
  decide

/-- C10: the CLI range for `page_size` starts at 0, so 0 is accepted;
with `page_size = 0` every `get_chip_info` call performs a
remainder-by-zero (a Rust panic, modelled by `none`) while scanning
the first valid input file, and `dtb_pack`'s own alignment remainder
panics likewise, so pack never produces output or a diagnostic skip. -/
theorem C10_zero_page_size_panics :
    pageSizeInRange 0 = true
    ∧ (∀ s buf : Bytes, get_chip_info s buf 0 = none)
    ∧ (∀ chips : List ChipInfo, dtb_pack 0 chips = none) := by
  refine ⟨rfl, fun s buf => ?_, fun chips => ?_⟩
  · unfold get_chip_info
    cases h0 : (splitIdent s).get? 0 <;> cases h1 : (splitIdent s).get? 1 <;>
      cases h2 : (splitIdent s).get? 2 <;> simp [rustRem]
  · cases chips with
    | nil => rfl
    | cons c t => simp [dtb_pack, rustRem]

/-- The 4-byte word reversal is an involution. -/
theorem wordRev_wordRev : ∀ l : Bytes, wordRev (wordRev l) = l
  | [] => rfl
  | [_] => rfl
  | [_, _] => rfl
  | [_, _, _] => rfl
  | a :: b :: c :: d :: rest => by
    show a :: b :: c :: d :: wordRev (wordRev rest) = _
    rw [wordRev_wordRev rest]

/-- Dropping whitespace from the front skips over a run of spaces. -/
theorem dropWhile_replicate_space (n : Nat) (l : Bytes) :
    List.dropWhile isWsByte (List.replicate n 32 ++ l)
      = List.dropWhile isWsByte l := by
  induction n with
  | zero => rfl
  | succ m ih => simpa [List.replicate_succ, List.dropWhile_cons] using ih

/-- The `trim_end` model removes exactly a trailing run of spaces when
the remaining core does not itself end in whitespace. -/
theorem rustTrimEnd_append_spaces (core : Bytes) (n : Nat)
    (h : endsInWs core = false) :
    rustTrimEnd (core ++ List.replicate n 32) = core := by
  unfold rustTrimEnd
  rw [List.reverse_append, List.reverse_replicate, dropWhile_replicate_space]
  have hcore : List.dropWhile isWsByte core.reverse = core.reverse := by
    unfold endsInWs at h
    cases hr : core.reverse with
    | nil => rfl
    | cons b t =>
      rw [hr] at h
      simp only at h
      simp [List.dropWhile_cons, h]
  rw [hcore, List.reverse_reverse]

/-- C9 (amended): after the per-4-byte-word reversal, only trailing
WHITESPACE bytes (spaces in particular) are trimmed before the field
is used in the output filename; trailing NUL bytes are not trimmed.
Stated for any stored field whose reversal is a core (not ending in
whitespace — it may well end in NULs, which survive) followed by a run
of space padding. -/
theorem C9_trim_removes_only_whitespace (core : Bytes) (n : Nat)
    (h : endsInWs core = false) :
    decodeField (wordRev (core ++ List.replicate n 32)) = core := by
  unfold decodeField
  rw [wordRev_wordRev, rustTrimEnd_append_spaces core n h]

/-- Witness for C9: a field whose core `gxbb\x00\x00` ends in NUL
bytes and carries two spaces of padding decodes to the core with the
NULs intact and the spaces trimmed. -/
theorem C9_trim_removes_only_whitespace_witness :
    endsInWs [103, 120, 98, 98, 0, 0] = false
    ∧ decodeField (wordRev ([103, 120, 98, 98, 0, 0] ++ List.replicate 2 32))
        = [103, 120, 98, 98, 0, 0] :=
  ⟨by decide, C9_trim_removes_only_whitespace [103, 120, 98, 98, 0, 0] 2 (by decide)⟩

/-- Offsets in the entry list built by `dtb_pack`: entry `i` records
(truncated to its 32-bit field) the start value plus the sum of the
`dtb_size` fields of all preceding chips. -/
theorem packEntryList_offset :
    ∀ (chips : List ChipInfo) (off i : Nat), i < chips.length →
      ((packEntryList chips off).get? i).map Entry.offset
        = some ((off + sumDtbSizes (chips.take i)) % 2 ^ 32)
  | [], _, i, hi => absurd hi (by simp)
  | c :: rest, off, 0, _ => by
    simp [packEntryList, packChipEntry, sumDtbSizes]
  | c :: rest, off, i + 1, hi => by
    have hj : i < rest.length := by simpa using hi
    have ih := packEntryList_offset rest (off + c.dtb_size) i hj
    simp only [packEntryList, List.get?, List.take, sumDtbSizes, List.map_cons,
      List.sum_cons] at ih ⊢
    rw [ih]
    ring_nf

/-- C3 (amended): the absolute offset recorded in entry `i` is the
running total, truncated to the 32-bit field, that starts at the
page-rounded first-blob offset and advances by each preceding chip's
PADDED size — the `dtb_size` computed in step 4 — not by its unpadded
on-disk size. -/
theorem C3_offsets_advance_by_padded_size (page : Nat) (chips : List ChipInfo)
    (i : Nat) (_hp : 1 ≤ page) (hi : i < chips.length) :
    ((packEntriesOf page chips).get? i).map Entry.offset
      = some ((firstBlobOffset page chips.length + sumDtbSizes (chips.take i))
          % 2 ^ 32) :=
  packEntryList_offset chips (firstBlobOffset page chips.length) i hi

/-- Witness for C3 (amended): with page size 8 and two chips of padded
size 8, the second entry's offset is 136 + 8 = 144. -/
theorem C3_offsets_advance_by_padded_size_witness :
    (1 ≤ 8 ∧ 1 < ([chipA3, chipA3] : List ChipInfo).length)
    ∧ ((packEntriesOf 8 [chipA3, chipA3]).get? 1).map Entry.offset
        = some ((firstBlobOffset 8 ([chipA3, chipA3] : List ChipInfo).length
            + sumDtbSizes ([chipA3, chipA3].take 1)) % 2 ^ 32) :=
  ⟨⟨by decide, by decide⟩,
    C3_offsets_advance_by_padded_size 8 [chipA3, chipA3] 1 (by decide) (by decide)⟩

/-- C3 counterexample: the claim says the offsets advance by each
preceding chip's UNPADDED on-disk size.  With page size 8 and a first
chip whose blob is 4 bytes long, the first two recorded offsets are
136 and 144: the advance is the padded size 8, not the unpadded length
4 (which would give 140). -/
theorem C3_unpadded_advance_is_wrong :
    (packEntriesOf 8 [chipA3, chipA3]).map Entry.offset = [136, 144]
    ∧ chipA3.dtb_file.length = 4
    ∧ (144 : Nat) ≠ 136 + 4 := by
  decide

/-- C4 (amended): the `dtb_size` recorded by `get_chip_info` is
`len + (page_size - (len mod page_size))` truncated to the 32-bit
field; the untruncated padded size always exceeds `len` by at least 1
and at most `page_size` bytes, and for page size 2048 with a 4096-byte
blob the stored value is 6144, not 4096. -/
theorem C4_padded_size_formula (s buf : Bytes) (page : Nat) (chip : ChipInfo)
    (hp : 1 ≤ page) (h : get_chip_info s buf page = some chip) :
    chip.dtb_size = (buf.length + (page - buf.length % page)) % 2 ^ 32
    ∧ 1 ≤ page - buf.length % page
    ∧ page - buf.length % page ≤ page
    ∧ paddedSize 4096 2048 = 6144 := by
  have hm : buf.length % page < page := Nat.mod_lt _ (by omega)
  refine ⟨?_, by omega, by omega, by decide⟩
  unfold get_chip_info at h
  cases h0 : (splitIdent s).get? 0 <;> rw [h0] at h <;>
    cases h1 : (splitIdent s).get? 1 <;> rw [h1] at h <;>
      cases h2 : (splitIdent s).get? 2 <;> rw [h2] at h <;>
        cases hr : rustRem buf.length page <;> rw [hr] at h <;>
          try exact Option.noConfusion h
  rw [← Option.some_inj.mp h]
  rfl

/-- Witness for C4 (amended): a 3-byte blob at page size 8 gets
`dtb_size` 8 recorded. -/
theorem C4_padded_size_formula_witness :
    (1 ≤ 8 ∧ get_chip_info idABC [1, 2, 3] 8 = some chipW)
    ∧ (chipW.dtb_size
          = (([1, 2, 3] : Bytes).length
              + (8 - ([1, 2, 3] : Bytes).length % 8)) % 2 ^ 32
        ∧ 1 ≤ 8 - ([1, 2, 3] : Bytes).length % 8
        ∧ 8 - ([1, 2, 3] : Bytes).length % 8 ≤ 8
        ∧ paddedSize 4096 2048 = 6144) :=
  ⟨⟨by decide, by decide⟩,
    C4_padded_size_formula idABC [1, 2, 3] 8 chipW (by decide) (by decide)⟩

/-- C4 counterexample: the claim states the recorded `dtb_size` equals
`len + (page_size - (len mod page_size))` for EVERY blob length.  The
field is a `u32`: for a blob of length 2^32 at page size 2048 the
recorded value is 2048, while the claimed formula gives 2^32 + 2048. -/
theorem C4_dtb_size_truncates :
    (get_chip_info idABC bigBuf 2048).map ChipInfo.dtb_size = some 2048
    ∧ bigBuf.length + (2048 - bigBuf.length % 2048) = 2 ^ 32 + 2048
    ∧ (2048 : Nat) ≠ 2 ^ 32 + 2048 := by
  have hlen : bigBuf.length = 2 ^ 32 := by
    show (List.replicate (2 ^ 32) (0 : Nat)).length = 2 ^ 32
    rw [List.length_replicate]
  have h0 : (splitIdent idABC).get? 0 = some [97] := rfl
  have h1 : (splitIdent idABC).get? 1 = some [98] := rfl
  have h2 : (splitIdent idABC).get? 2 = some [99] := rfl
  refine ⟨?_, by rw [hlen]; norm_num, by norm_num⟩
  unfold get_chip_info
  rw [hlen, h0, h1, h2]
  rfl

/-- C5 (amended): with no inter-field padding, a serialized version-1
entry (4-byte identifier fields) is 20 bytes wide and a serialized
version-2 entry (16-byte identifier fields) is 16+16+16+4+4 = 56 bytes
wide, not 68. -/
theorem C5_entry_record_widths (e1 e2 : Entry)
    (h1 : entryWF 4 e1) (h2 : entryWF 16 e2) :
    (serializeEntry e1).length = 20 ∧ (serializeEntry e2).length = 56 := by
  obtain ⟨a1, b1, c1⟩ := h1
  obtain ⟨a2, b2, c2⟩ := h2
  constructor <;> simp [serializeEntry, le32, a1, b1, c1, a2, b2, c2]

/-- Witness for C5 (amended): concrete well-formed entries of both
versions have serialized widths 20 and 56. -/
theorem C5_entry_record_widths_witness :
    (entryWF 4 entV1 ∧ entryWF 16 entV2)
    ∧ ((serializeEntry entV1).length = 20 ∧ (serializeEntry entV2).length = 56) :=
  ⟨⟨⟨rfl, rfl, rfl⟩, ⟨rfl, rfl, rfl⟩⟩,
    C5_entry_record_widths entV1 entV2 ⟨rfl, rfl, rfl⟩ ⟨rfl, rfl, rfl⟩⟩

/-- C6: during pack, trailing filler after a blob is written only when
the filler size `page_size - (len mod page_size)` is nonzero and
strictly below a full page; a page-aligned blob therefore gets exactly
zero trailing filler bytes, even though the step-4 size bookkeeping
(`paddedSize`, the value recorded in `dtb_size`) charges it a full
extra page. -/
theorem C6_aligned_blob_gets_no_filler (page : Nat) (blob : Bytes)
    (hp : 1 ≤ page) :
    (blob.length % page = 0 →
        packOneBlob page blob = blob
        ∧ paddedSize blob.length page = blob.length + page)
    ∧ (blob.length % page ≠ 0 →
        packOneBlob page blob
            = blob ++ List.replicate (page - blob.length % page) 0
        ∧ 0 < page - blob.length % page
        ∧ page - blob.length % page < page) := by
  have hm : blob.length % page < page := Nat.mod_lt _ (by omega)
  constructor
  · intro h0
    constructor
    · unfold packOneBlob
      rw [h0]
      simp
    · unfold paddedSize
      omega
  · intro hne
    have h1 : 0 < page - blob.length % page := by omega
    have h2 : page - blob.length % page < page := by omega
    refine ⟨?_, h1, h2⟩
    unfold packOneBlob
    simp only []
    rw [if_pos ⟨h1, h2⟩]

/-- Witness for C6: an 8-byte blob at page size 8 is written with no
trailing filler while its padded size is 16. -/
theorem C6_aligned_blob_gets_no_filler_witness :
    1 ≤ 8
    ∧ ((blobAligned.length % 8 = 0 →
          packOneBlob 8 blobAligned = blobAligned
          ∧ paddedSize blobAligned.length 8 = blobAligned.length + 8)
        ∧ (blobAligned.length % 8 ≠ 0 →
          packOneBlob 8 blobAligned
              = blobAligned ++ List.replicate (8 - blobAligned.length % 8) 0
          ∧ 0 < 8 - blobAligned.length % 8
          ∧ 8 - blobAligned.length % 8 < 8)) :=
  ⟨by decide, C6_aligned_blob_gets_no_filler 8 blobAligned (by decide)⟩

/-- C7: for a container whose header parses with 3 entries where only
entry 2's embedded blob header magic differs from the blob signature
(entries 1 and 3 having readable, valid blobs and ASCII identifier
fields as the format prescribes), `dump_data` extracts entries 1 and 3
in order, skips entry 2 only, emits exactly one skipped-entry
diagnostic, and does not abort the batch. -/
theorem C7_one_bad_magic_skips_one_entry (idSize : Nat) (dest data : Bytes)
    (pos : Nat) (e1 e2 e3 : Entry) (id1 id2 id3 dh1 dh2 dh3 blob1 blob3 : Bytes)
    (hparse : parseEntries idSize 3 data pos = some [e1, e2, e3])
    (h1i : entryId e1 = some id1)
    (h1h : readExact data e1.offset 8 = some dh1)
    (h1m : fromLE32 (dh1.take 4) = DT_HEADER_MAGIC)
    (h1b : readExact data e1.offset (fromBE32 (dh1.drop 4)) = some blob1)
    (h2i : entryId e2 = some id2)
    (h2h : readExact data e2.offset 8 = some dh2)
    (h2m : fromLE32 (dh2.take 4) ≠ DT_HEADER_MAGIC)
    (h3i : entryId e3 = some id3)
    (h3h : readExact data e3.offset 8 = some dh3)
    (h3m : fromLE32 (dh3.take 4) = DT_HEADER_MAGIC)
    (h3b : readExact data e3.offset (fromBE32 (dh3.drop 4)) = some blob3) :
    dump_data idSize 3 dest data pos
      = some ([⟨dest ++ id1 ++ dtbExt, blob1⟩, ⟨dest ++ id3 ++ dtbExt, blob3⟩], 1) := by
  unfold dump_data
  rw [hparse]
  simp only [dumpLoop, processEntry, h1i, h1h, h1m, h1b, h2i, h2h, h2m, h3i,
    h3h, h3m, h3b, eq_self_iff_true, if_true, if_false]

/-- Witness for C7: an 88-byte cursor buffer with three version-1
entries — entry 2's blob magic zeroed — from which split extracts
entries 1 and 3 and reports one skip. -/
theorem C7_one_bad_magic_skips_one_entry_witness :
    (parseEntries 4 3 dataC7 0 = some [e1C7, e2C7, e3C7]
      ∧ entryId e1C7 = some idC7
      ∧ readExact dataC7 e1C7.offset 8 = some dh1C7
      ∧ fromLE32 (dh1C7.take 4) = DT_HEADER_MAGIC
      ∧ readExact dataC7 e1C7.offset (fromBE32 (dh1C7.drop 4)) = some blob1C7
      ∧ entryId e2C7 = some idC7
      ∧ readExact dataC7 e2C7.offset 8 = some dh2C7
      ∧ fromLE32 (dh2C7.take 4) ≠ DT_HEADER_MAGIC
      ∧ entryId e3C7 = some idC7
      ∧ readExact dataC7 e3C7.offset 8 = some dh3C7
      ∧ fromLE32 (dh3C7.take 4) = DT_HEADER_MAGIC
      ∧ readExact dataC7 e3C7.offset (fromBE32 (dh3C7.drop 4)) = some dh3C7)
    ∧ dump_data 4 3 [] dataC7 0
        = some ([⟨[] ++ idC7 ++ dtbExt, blob1C7⟩, ⟨[] ++ idC7 ++ dtbExt, dh3C7⟩], 1) :=
  ⟨⟨by decide, by decide, by decide, by decide, by decide, by decide, by decide,
      by decide, by decide, by decide, by decide, by decide⟩,
    C7_one_bad_magic_skips_one_entry 4 [] dataC7 0 e1C7 e2C7 e3C7 idC7 idC7 idC7
      dh1C7 dh2C7 dh3C7 blob1C7 dh3C7 (by decide) (by decide) (by decide)
      (by decide) (by decide) (by decide) (by decide) (by decide) (by decide)
      (by decide) (by decide) (by decide)⟩

end DtbTool
